import Mathlib

/-!
Verification of the MeanReversionTrader core (signal generation and backtest
simulation engine) against its natural-language specification.

The definitions below are a shallow embedding of the Python source:
- `calculate_simple_rsi` embeds `simple_strategy.calculate_simple_rsi`
  (simple trailing-window mean RSI; NaN is modelled as `Option.none`).
- `calculate_rsi` embeds `utils.calculate_rsi` (exponentially weighted RSI).
- `identify_red_days` embeds `MeanReversionStrategy.identify_red_days`, whose
  loop is textually identical to the inline red-day loop in `simple_backtest`.
- `generate_signals_buy` embeds the `Buy_Signal` column of
  `MeanReversionStrategy.generate_signals`.
- `simple_backtest` embeds `simple_strategy.simple_backtest`;
  `MeanReversionStrategy_backtest` embeds `MeanReversionStrategy.backtest`.
- `calculate_performance_metrics` embeds
  `MeanReversionStrategy.calculate_performance_metrics`;
  `calculate_trade_statistics` embeds `utils.calculate_trade_statistics`
  (the fields that require floating-point square roots, `std_return` and
  `sharpe_ratio`, are not modelled; no claim refers to them).
- `SimpleStrategy_backtest` embeds `SimpleStrategy.backtest` (the try/except
  wrapper); the outcome of its try block is abstracted as an `Except` value
  because the exceptions it can catch originate in unmodelled pandas
  machinery.

Prices are rationals; pandas timestamps are modelled as integers (days), so
`(sell_date - buy_date).days` becomes integer subtraction. NumPy NaN is
modelled as `Option.none` wherever the source can produce it.
-/

/-- Exit reason of a closed trade: the string values `'target_hit'` and
`'end_of_data'` in the source. -/
inductive ExitReason where
  | target_hit : ExitReason
  | end_of_data : ExitReason
deriving DecidableEq, Repr

/-- One closed trade, mirroring the trade dict built by `simple_backtest` and
`MeanReversionStrategy.backtest`. -/
structure Trade where
  ticker : String
  buyDate : ℤ
  buyPrice : ℚ
  sellDate : ℤ
  sellPrice : ℚ
  returnPct : ℚ
  daysHeld : ℤ
  exitReason : ExitReason
deriving DecidableEq, Repr

/-- The open-position dict `\x7b'buy_date': ..., 'buy_price': ...\x7d` held by
both backtest loops while in a position. -/
structure Position where
  buyDate : ℤ
  buyPrice : ℚ
deriving DecidableEq, Repr

/-- Loop state of a backtest: the current position (`None` when flat) and the
trades accumulated so far.  The `opens` field is ghost instrumentation that
counts how many times a position was opened; the source has no such counter,
and no definition reads it back into `position` or `trades`. -/
structure SimState where
  position : Option Position
  trades : List Trade
  opens : ℕ
deriving DecidableEq, Repr

/-- Successive differences, embedding `np.diff(prices)` / `prices.diff()`
(the leading NaN of `pandas.Series.diff` is dropped, matching `np.diff`). -/
def diffs : List ℚ → List ℚ
  | [] => []
  | [_] => []
  | a :: b :: rest => (b - a) :: diffs (b :: rest)

/-- Gains series of `calculate_simple_rsi`:
`np.where(deltas > 0, deltas, 0)`. -/
def gainList (prices : List ℚ) : List ℚ :=
  (diffs prices).map (fun d => max d 0)

/-- Losses series of `calculate_simple_rsi`:
`np.where(deltas < 0, -deltas, 0)`. -/
def lossList (prices : List ℚ) : List ℚ :=
  (diffs prices).map (fun d => max (-d) 0)

/-- Trailing-window means of `calculate_simple_rsi`: entry `i` is NaN
(`none`) when `i < period - 1`, otherwise the arithmetic mean of
`xs[i-period+1 .. i]` (`np.mean(gains[i-period+1:i+1])`).  For `period = 0`
the source's `np.mean` of an empty slice would be NaN where this embedding's
total division gives 0; no caller passes period 0 and every theorem below
assumes `0 < period`. -/
def windowMeans (xs : List ℚ) (period : ℕ) : List (Option ℚ) :=
  (List.range xs.length).map (fun i =>
    if i + 1 < period then none
    else some ((((xs.drop (i + 1 - period)).take period).sum) / (period : ℚ)))

/-- Embeds `simple_strategy.calculate_simple_rsi`.  Entry `i` of the result is
`none` exactly where the source stores `np.nan`: at the padded index 0, where
the trailing window is incomplete, and where the trailing mean loss is 0
(the source's `np.isnan(avg_gains[i]) or avg_losses[i] == 0` test). -/
def calculate_simple_rsi (prices : List ℚ) (period : ℕ) : List (Option ℚ) :=
  let deltas := diffs prices
  let avgGains := windowMeans (gainList prices) period
  let avgLosses := windowMeans (lossList prices) period
  let rsiValues := (List.range deltas.length).map (fun i =>
    match avgGains.getD i none, avgLosses.getD i none with
    | some g, some l =>
        if l = 0 then none else some (100 - 100 / (1 + g / l))
    | _, _ => none)
  none :: rsiValues

/-- Sum of the trailing `period` losses feeding the RSI value at index `i` of
`calculate_simple_rsi` (for `period ≤ i`): the window
`losses[i-period .. i-1]` in delta indices. -/
def trailingLossSum (prices : List ℚ) (period i : ℕ) : ℚ :=
  (((lossList prices).drop (i - period)).take period).sum
/-- Mean of the trailing `period` losses feeding the RSI value at index `i`
of `calculate_simple_rsi` (the source's `avg_losses[i-1]`). -/
def trailingLossMean (prices : List ℚ) (period i : ℕ) : ℚ :=
  trailingLossSum prices period i / (period : ℚ)

/-- Exponentially weighted mean with `adjust=False`:
`y[0] = x[0]`, `y[i] = (1-α)·y[i-1] + α·x[i]`, the recurrence used by
`Series.ewm(span=period, adjust=False).mean()`. -/
def ewmAux (α prev : ℚ) : List ℚ → List ℚ
  | [] => []
  | x :: rest =>
      let y := (1 - α) * prev + α * x
      y :: ewmAux α y rest

/-- Embeds `Series.ewm(span, adjust=False).mean()` for a NaN-free series. -/
def ewm (α : ℚ) : List ℚ → List ℚ
  | [] => []
  | x :: rest => x :: ewmAux α x rest

/-- Gains series of `utils.calculate_rsi`: `delta.where(delta > 0, 0)`.
The leading NaN of `prices.diff()` fails the `> 0` test, so index 0 is 0. -/
def gainSeries (prices : List ℚ) : List ℚ :=
  match prices with
  | [] => []
  | _ :: _ => 0 :: (diffs prices).map (fun d => max d 0)

/-- Losses series of `utils.calculate_rsi`: `-delta.where(delta < 0, 0)`. -/
def lossSeries (prices : List ℚ) : List ℚ :=
  match prices with
  | [] => []
  | _ :: _ => 0 :: (diffs prices).map (fun d => max (-d) 0)

/-- Embeds `utils.calculate_rsi` (exponentially weighted RSI).  In the source
`rs = avg_gains / avg_losses` is IEEE division: positive/0 is `inf`, making
`rsi = 100 - 100/(1+rs)` equal to 100, while 0/0 is NaN and propagates; both
cases are written out explicitly here. -/
def calculate_rsi (prices : List ℚ) (period : ℕ) : List (Option ℚ) :=
  let α : ℚ := 2 / ((period : ℚ) + 1)
  let avgGains := ewm α (gainSeries prices)
  let avgLosses := ewm α (lossSeries prices)
  (List.range prices.length).map (fun i =>
    let g := avgGains.getD i 0
    let l := avgLosses.getD i 0
    if l = 0 then (if g = 0 then none else some 100)
    else some (100 - 100 / (1 + g / l)))

/-- Recursive worker for `identify_red_days`: carries the previous close and
the previous run length. -/
def identifyRedAux (prevClose : ℚ) (prevRun : ℕ) : List ℚ → List ℕ
  | [] => []
  | c :: rest =>
      let r := if c < prevClose then prevRun + 1 else 0
      r :: identifyRedAux c r rest

/-- Embeds `MeanReversionStrategy.identify_red_days`; the consecutive-red-day
loop of `simple_backtest` (lines 50–55) is textually the same computation.
The source seeds the list with a single 0 before looping from index 1, so an
empty close series still yields `[0]`. -/
def identify_red_days (closes : List ℚ) : List ℕ :=
  match closes with
  | [] => [0]
  | c :: rest => 0 :: identifyRedAux c 0 rest

/-- Embeds the `Buy_Signal` column of
`MeanReversionStrategy.generate_signals`: true iff the red-day run is at
least `red_days` and the RSI value is defined (not NaN) and below
`rsi_threshold`.  (The source also tests `np.isnan` on the run length, which
is integral and never NaN.) -/
def generate_signals_buy (prices : List ℚ) (rsiThreshold : ℚ)
    (redDays rsiPeriod : ℕ) : List Bool :=
  let rsiV := calculate_rsi prices rsiPeriod
  let red := identify_red_days prices
  (List.range prices.length).map (fun i =>
    match rsiV.getD i none with
    | none => false
    | some r => decide (redDays ≤ red.getD i 0) && decide (r < rsiThreshold))

/-- One iteration of the `for i in range(len(dates))` loop of
`simple_strategy.simple_backtest`.  A bar whose RSI is NaN is skipped
entirely (`continue`), before either the entry or the exit branch runs.
Entry: flat, run length at least `red_days`, RSI below `rsi_threshold`.
Exit: in position and (`abs(return_pct) >= exit_percentage` or the bar is the
last one); the threshold test is evaluated first for `exit_reason`. -/
def simpleStep (dates : List ℤ) (closes : List ℚ) (rsiV : List (Option ℚ))
    (red : List ℕ) (rsiThreshold exitPercentage : ℚ) (redDays : ℕ)
    (s : SimState) (i : ℕ) : SimState :=
  let currentDate := dates.getD i 0
  let currentPrice := closes.getD i 0
  match rsiV.getD i none with
  | none => s
  | some r =>
    match s.position with
    | none =>
        if redDays ≤ red.getD i 0 ∧ r < rsiThreshold then
          { s with position := some ⟨currentDate, currentPrice⟩,
                   opens := s.opens + 1 }
        else s
    | some pos =>
        let returnPct := (currentPrice - pos.buyPrice) / pos.buyPrice
        if exitPercentage ≤ |returnPct| ∨ i = dates.length - 1 then
          { position := none,
            trades := s.trades ++
              [{ ticker := "STOCK",
                 buyDate := pos.buyDate,
                 buyPrice := pos.buyPrice,
                 sellDate := currentDate,
                 sellPrice := currentPrice,
                 returnPct := returnPct * 100,
                 daysHeld := currentDate - pos.buyDate,
                 exitReason := if exitPercentage ≤ |returnPct| then
                   ExitReason.target_hit else ExitReason.end_of_data }],
            opens := s.opens }
        else s

/-- Final loop state of `simple_strategy.simple_backtest`: the guard
`len(data) < 20` returns immediately, otherwise the loop runs over all
indices with RSI from `calculate_simple_rsi(closes)` (period 14) and the
red-day runs computed inline. -/
def simple_backtest_run (dates : List ℤ) (closes : List ℚ)
    (rsiThreshold exitPercentage : ℚ) (redDays : ℕ) : SimState :=
  if dates.length < 20 then ⟨none, [], 0⟩
  else
    let rsiV := calculate_simple_rsi closes 14
    let red := identify_red_days closes
    (List.range dates.length).foldl
      (simpleStep dates closes rsiV red rsiThreshold exitPercentage redDays)
      ⟨none, [], 0⟩

/-- Embeds `simple_strategy.simple_backtest`: the trade list it returns. -/
def simple_backtest (dates : List ℤ) (closes : List ℚ)
    (rsiThreshold exitPercentage : ℚ) (redDays : ℕ) : List Trade :=
  (simple_backtest_run dates closes rsiThreshold exitPercentage redDays).trades

/-- Number of positions `simple_backtest` opens on the given input (the ghost
`opens` counter of the same loop run that produces the trade list). -/
def simple_backtest_opens (dates : List ℤ) (closes : List ℚ)
    (rsiThreshold exitPercentage : ℚ) (redDays : ℕ) : ℕ :=
  (simple_backtest_run dates closes rsiThreshold exitPercentage redDays).opens

/-- One iteration of the `for i, (date, row) in enumerate(signals.iterrows())`
loop of `MeanReversionStrategy.backtest`.  A NaN RSI row is skipped
(`continue`); entry requires flat state and `row['Buy_Signal']`; exit
requires a position and (`abs(return_pct) >= exit_percentage` or last row),
with the threshold test deciding `exit_reason`. -/
def mrStep (dates : List ℤ) (closes : List ℚ) (rsiV : List (Option ℚ))
    (buy : List Bool) (exitPercentage : ℚ) (ticker : String)
    (s : SimState) (i : ℕ) : SimState :=
  match rsiV.getD i none with
  | none => s
  | some _ =>
    match s.position with
    | none =>
        if buy.getD i false then
          { s with position := some ⟨dates.getD i 0, closes.getD i 0⟩,
                   opens := s.opens + 1 }
        else s
    | some pos =>
        let currentPrice := closes.getD i 0
        let returnPct := (currentPrice - pos.buyPrice) / pos.buyPrice
        let shouldSell := exitPercentage ≤ |returnPct|
        if shouldSell ∨ i = dates.length - 1 then
          { position := none,
            trades := s.trades ++
              [{ ticker := ticker,
                 buyDate := pos.buyDate,
                 buyPrice := pos.buyPrice,
                 sellDate := dates.getD i 0,
                 sellPrice := currentPrice,
                 returnPct := returnPct * 100,
                 daysHeld := dates.getD i 0 - pos.buyDate,
                 exitReason := if shouldSell then
                   ExitReason.target_hit else ExitReason.end_of_data }],
            opens := s.opens }
        else s

/-- Embeds `MeanReversionStrategy.backtest`: runs the loop over the signal
frame (RSI from `utils.calculate_rsi`, buy signals from
`generate_signals`), then force-closes any position still open using the
last row's date and close, with `exit_reason = 'end_of_data'`. -/
def MeanReversionStrategy_backtest (dates : List ℤ) (closes : List ℚ)
    (rsiThreshold exitPercentage : ℚ) (redDays rsiPeriod : ℕ)
    (ticker : String) : List Trade :=
  let rsiV := calculate_rsi closes rsiPeriod
  let buy := generate_signals_buy closes rsiThreshold redDays rsiPeriod
  let final := (List.range dates.length).foldl
    (mrStep dates closes rsiV buy exitPercentage ticker) ⟨none, [], 0⟩
  match final.position with
  | none => final.trades
  | some pos =>
      let lastDate := dates.getD (dates.length - 1) 0
      let lastPrice := closes.getD (closes.length - 1) 0
      let returnPct := (lastPrice - pos.buyPrice) / pos.buyPrice
      final.trades ++
        [{ ticker := ticker,
           buyDate := pos.buyDate,
           buyPrice := pos.buyPrice,
           sellDate := lastDate,
           sellPrice := lastPrice,
           returnPct := returnPct * 100,
           daysHeld := lastDate - pos.buyDate,
           exitReason := ExitReason.end_of_data }]

/-- Maximum of a return list as `np.max` over a non-empty list (0 for the
empty list, which the callers exclude). -/
def listMax : List ℚ → ℚ
  | [] => 0
  | r :: rs => rs.foldl max r

/-- Minimum of a return list as `np.min` over a non-empty list. -/
def listMin : List ℚ → ℚ
  | [] => 0
  | r :: rs => rs.foldl min r

/-- Result dict of `MeanReversionStrategy.calculate_performance_metrics`.
The source's non-empty branch also stores `median_return` and `std_return`;
`std_return` is a floating-point square root and neither field is referred to
by any claim, so they are not modelled. -/
structure PerfMetrics where
  total_trades : ℕ
  win_rate : ℚ
  avg_return : ℚ
  total_return : ℚ
  best_trade : ℚ
  worst_trade : ℚ
  avg_days_held : ℚ
deriving DecidableEq, Repr

/-- Embeds `MeanReversionStrategy.calculate_performance_metrics`: for an
empty trade list an all-zero dict; otherwise `win_rate` is
`len(winning_trades) / len(trades) * 100` where winning trades are those
with `return_pct > 0`. -/
def calculate_performance_metrics (trades : List Trade) : PerfMetrics :=
  if trades = [] then
    { total_trades := 0, win_rate := 0, avg_return := 0, total_return := 0,
      best_trade := 0, worst_trade := 0, avg_days_held := 0 }
  else
    let returns := trades.map (·.returnPct)
    let daysHeld := trades.map (·.daysHeld)
    let winning := returns.filter (fun r => 0 < r)
    { total_trades := trades.length,
      win_rate := (winning.length : ℚ) / (trades.length : ℚ) * 100,
      avg_return := returns.sum / (returns.length : ℚ),
      total_return := returns.sum,
      best_trade := listMax returns,
      worst_trade := listMin returns,
      avg_days_held := ((daysHeld.sum : ℚ)) / (daysHeld.length : ℚ) }

/-- Stats dict of `utils.calculate_trade_statistics`.  Only the counting
fields and `win_rate` are modelled; the remaining fields (averages, profit
factor, drawdown, Sharpe) are not referred to by any claim and the last two
involve floating-point square roots. -/
structure TradeStats where
  total_trades : ℕ
  winning_trades : ℕ
  losing_trades : ℕ
  win_rate : ℚ
deriving DecidableEq, Repr

/-- Embeds `utils.calculate_trade_statistics`: for an empty trade list the
source returns the EMPTY dict `\x7b\x7d` (modelled as `none`), otherwise a dict
whose `win_rate` is `len(winning_trades) / len(trades) * 100`. -/
def calculate_trade_statistics (trades : List Trade) : Option TradeStats :=
  if trades = [] then none
  else
    let returns := trades.map (·.returnPct)
    let winning := returns.filter (fun r => 0 < r)
    let losing := returns.filter (fun r => r < 0)
    some { total_trades := trades.length,
           winning_trades := winning.length,
           losing_trades := losing.length,
           win_rate := (winning.length : ℚ) / (trades.length : ℚ) * 100 }

/-- Signals frame returned by `SimpleStrategy.backtest`: a copy of the input
bars, with `rsiColumn = some rsi` when the success path has executed
`signals['RSI'] = rsi_values` and `none` for the bare `data.copy()` returned
by the except path. -/
structure SignalsFrame where
  bars : List (ℤ × ℚ)
  rsiColumn : Option (List (Option ℚ))
deriving DecidableEq, Repr

/-- Body of the `try` block of `SimpleStrategy.backtest`: run
`simple_backtest`, overwrite each trade's ticker, and build the signals
frame with the RSI column attached. -/
def SimpleStrategy_backtest_try (dates : List ℤ) (closes : List ℚ)
    (rsiThreshold exitPercentage : ℚ) (redDays : ℕ) (ticker : String) :
    List Trade × SignalsFrame :=
  let trades := (simple_backtest dates closes rsiThreshold exitPercentage
    redDays).map (fun t => { t with ticker := ticker })
  (trades, ⟨dates.zip closes, some (calculate_simple_rsi closes 14)⟩)

/-- Embeds `SimpleStrategy.backtest`.  The try block's outcome is abstracted
as an `Except` value (the exceptions the source can catch, e.g. a length
mismatch when assigning the RSI column, arise in unmodelled pandas
machinery); on success that outcome equals `SimpleStrategy_backtest_try`.
The except path returns the empty trade list and a bare copy of the input
data, with no RSI column. -/
def SimpleStrategy_backtest (outcome : Except String (List Trade × SignalsFrame))
    (dates : List ℤ) (closes : List ℚ) : List Trade × SignalsFrame :=
  match outcome with
  | Except.ok result => result
  | Except.error _ => ([], ⟨dates.zip closes, none⟩)

/-- Strictly increasing timestamps, the PriceSeries invariant of the spec. -/
def datesMono (dates : List ℤ) : Prop :=
  dates.Pairwise (fun a b => a < b)

/-- Ordering invariant claimed for a TradeSet: every trade closes no earlier
than it opens, and each trade opens strictly after the previous one closed
(hence the set is chronological and non-overlapping). -/
def tradesOrdered (ts : List Trade) : Prop :=
  (∀ t ∈ ts, t.buyDate ≤ t.sellDate) ∧
  ts.Chain' (fun a b => a.sellDate < b.buyDate)

/-- Loop invariant of both backtest loops, at the point where bar `i` is the
next to be processed: accumulated trades are ordered, every recorded exit
happened at a bar before `i`, and an open position was entered at a bar
before `i`, strictly after every recorded exit. -/
def SimInv (dates : List ℤ) (s : SimState) (i : ℕ) : Prop :=
  (∀ t ∈ s.trades, t.buyDate ≤ t.sellDate) ∧
  s.trades.Chain' (fun a b => a.sellDate < b.buyDate) ∧
  (∀ t ∈ s.trades, ∃ j, j < i ∧ j < dates.length ∧ t.sellDate = dates.getD j 0) ∧
  (∀ p, s.position = some p →
    (∃ j, j < i ∧ j < dates.length ∧ p.buyDate = dates.getD j 0) ∧
    ∀ t ∈ s.trades, t.sellDate < p.buyDate)

/-- Twenty-bar close series (in twentieths) whose only entry signal fires at
the final bar: big red day then tiny green day alternating (run length never
reaches 2, RSI stays defined and low), then two consecutive red days at the
end. -/
def c1closes : List ℚ :=
  [100, 2001/20, 1901/20, 1902/20, 1802/20, 1803/20, 1703/20, 1704/20,
   1604/20, 1605/20, 1505/20, 1506/20, 1406/20, 1407/20, 1307/20, 1308/20,
   1208/20, 1209/20, 1109/20, 1009/20]

/-- Day-number timestamps 0,…,19 for `c1closes`. -/
def c1dates : List ℤ :=
  [0, 1, 2, 3, 4, 5, 6, 7, 8, 9, 10, 11, 12, 13, 14, 15, 16, 17, 18, 19]

/-- Thirty-bar close series (in tenths): fourteen red days (entry at bar 14,
price 86), a slow rise below the 5% bracket through bar 27, a jump to 91 at
bar 28 (crossing +5%, but all fourteen trailing deltas are gains, so RSI is
NaN there and the bar is skipped), then a dip to 90.5 at bar 29. -/
def c2closes : List ℚ :=
  [100, 99, 98, 97, 96, 95, 94, 93, 92, 91, 90, 89, 88, 87, 86,
   863/10, 866/10, 869/10, 872/10, 875/10, 878/10, 881/10, 884/10, 887/10,
   89, 893/10, 896/10, 899/10, 91, 905/10]

/-- Day-number timestamps 0,…,29 for `c2closes`. -/
def c2dates : List ℤ :=
  [0, 1, 2, 3, 4, 5, 6, 7, 8, 9, 10, 11, 12, 13, 14, 15, 16, 17, 18, 19,
   20, 21, 22, 23, 24, 25, 26, 27, 28, 29]

/-- Strictly increasing 15-bar series: every trailing RSI window has zero
losses. -/
def c3prices : List ℚ :=
  [1, 2, 3, 4, 5, 6, 7, 8, 9, 10, 11, 12, 13, 14, 15]

/-- Strictly increasing 16-bar series, as `c3prices` with one more bar. -/
def c4prices : List ℚ :=
  [1, 2, 3, 4, 5, 6, 7, 8, 9, 10, 11, 12, 13, 14, 15, 16]

/-- Strictly decreasing 20-bar close series 100, 99, …, 81. -/
def c9closes : List ℚ :=
  [100, 99, 98, 97, 96, 95, 94, 93, 92, 91, 90, 89, 88, 87, 86, 85, 84,
   83, 82, 81]

/-- The same series shifted down so that prices cross into negative values:
5, 4, …, -14. -/
def c9negCloses : List ℚ :=
  [5, 4, 3, 2, 1, 0, -1, -2, -3, -4, -5, -6, -7, -8, -9, -10, -11, -12,
   -13, -14]

/-- Day-number timestamps 0,…,19 for the C9 inputs. -/
def c9dates : List ℤ :=
  [0, 1, 2, 3, 4, 5, 6, 7, 8, 9, 10, 11, 12, 13, 14, 15, 16, 17, 18, 19]

/-- A winning trade (return +10%) used to probe the aggregator. -/
def c8winTrade : Trade :=
  { ticker := "STOCK", buyDate := 0, buyPrice := 100, sellDate := 3,
    sellPrice := 110, returnPct := 10, daysHeld := 3,
    exitReason := ExitReason.target_hit }

/-- A losing trade (return −5%) used to probe the aggregator. -/
def c8loseTrade : Trade :=
  { ticker := "STOCK", buyDate := 4, buyPrice := 110, sellDate := 6,
    sellPrice := 1045/10, returnPct := -5, daysHeld := 2,
    exitReason := ExitReason.target_hit }

/-- Indexing a mapped range: entry `i` of `(List.range n).map f` is `f i`. -/
lemma getD_range_map {α : Type} (f : ℕ → α) {n i : ℕ} (d : α) (h : i < n) :
    ((List.range n).map f).getD i d = f i := by
  have hl : i < ((List.range n).map f).length := by simpa using h
  rw [List.getD_eq_getElem _ _ hl]
  simp

/-- `np.diff` shortens a series by one. -/
lemma diffs_length : ∀ prices : List ℚ, (diffs prices).length = prices.length - 1
  | [] => rfl
  | [_] => rfl
  | a :: b :: rest => by
      have := diffs_length (b :: rest)
      simp [diffs] at this ⊢
      omega

/-- The two windowed-mean inputs of `calculate_simple_rsi` have the same
length as the delta series. -/
lemma gainList_length (prices : List ℚ) :
    (gainList prices).length = (diffs prices).length := by
  simp [gainList]

lemma lossList_length (prices : List ℚ) :
    (lossList prices).length = (diffs prices).length := by
  simp [lossList]

/-- The RSI list of `calculate_simple_rsi` has one entry per price bar
(`[np.nan] + rsi_values` with one RSI value per delta). -/
lemma calculate_simple_rsi_length (prices : List ℚ) (period : ℕ)
    (hne : prices ≠ []) :
    (calculate_simple_rsi prices period).length = prices.length := by
  have h1 : 1 ≤ prices.length := by
    cases prices with
    | nil => simp at hne
    | cons a l => simp
  simp [calculate_simple_rsi, diffs_length]
  omega

/-- Worked-out value of entry `i ≥ 1` of `calculate_simple_rsi`: the match on
the two windowed means, with the incomplete-window case and the
zero-mean-loss case both giving `none`. -/
lemma calculate_simple_rsi_getD_succ (prices : List ℚ) (period : ℕ) (i : ℕ)
    (h1 : 1 ≤ i) (hi : i < prices.length) :
    (calculate_simple_rsi prices period).getD i none =
      (if i < period then none
       else if trailingLossSum prices period i / (period : ℚ) = 0 then none
       else some (100 - 100 /
         (1 + ((((gainList prices).drop (i - period)).take period).sum / (period : ℚ)) /
           (trailingLossSum prices period i / (period : ℚ))))) := by
  obtain ⟨j, rfl⟩ : ∃ j, i = j + 1 := ⟨i - 1, by omega⟩
  have hj : j < (diffs prices).length := by
    rw [diffs_length]; omega
  have hg : j < (gainList prices).length := by rw [gainList_length]; exact hj
  have hl : j < (lossList prices).length := by rw [lossList_length]; exact hj
  simp only [calculate_simple_rsi, List.getD_cons_succ]
  rw [getD_range_map _ none hj]
  rw [windowMeans, getD_range_map _ none hg]
  rw [windowMeans, getD_range_map _ none hl]
  by_cases hp : j + 1 < period
  · simp only [if_pos hp]
  · simp only [if_neg hp, trailingLossSum]


/-- `identifyRedAux` preserves length. -/
lemma identifyRedAux_length (xs : List ℚ) : ∀ (c : ℚ) (r : ℕ),
    (identifyRedAux c r xs).length = xs.length := by
  induction xs with
  | nil => intro c r; rfl
  | cons x rest ih => intro c r; simp [identifyRedAux, ih]

/-- Pointwise description of `identifyRedAux`: each entry extends the
previous run on a strictly lower close and resets to 0 otherwise, where the
previous close and run are read through a cons of the carried values. -/
lemma identifyRedAux_getD (xs : List ℚ) : ∀ (c : ℚ) (r : ℕ) (i : ℕ),
    i < xs.length →
    (identifyRedAux c r xs).getD i 0 =
      if xs.getD i 0 < (c :: xs).getD i 0
      then (r :: identifyRedAux c r xs).getD i 0 + 1 else 0 := by
  induction xs with
  | nil => intro c r i h; simp at h
  | cons x rest ih =>
    intro c r i h
    cases i with
    | zero =>
        by_cases hx : x < c
        · simp [identifyRedAux, hx]
        · simp [identifyRedAux, hx]
    | succ j =>
        have hj : j < rest.length := by simpa using h
        by_cases hx : x < c
        · simpa [identifyRedAux, hx] using ih x (r + 1) j hj
        · simpa [identifyRedAux, hx] using ih x 0 j hj

/-- Claim C4 (amended).  `calculate_simple_rsi` returns a sequence of the
same length as its (non-empty) input, whose entry at index `i` is undefined
exactly when fewer than `period` trailing deltas are available (`i < period`)
OR the mean of the trailing `period` losses is exactly 0; it is defined
otherwise.  (The original claim's "and defined otherwise" is refuted by
`rsi_window_boundary_counterexample`: a zero-loss window also yields an
undefined value.) -/
theorem rsi_undefined_iff (prices : List ℚ) (period : ℕ) (hp : 0 < period)
    (hne : prices ≠ []) :
    (calculate_simple_rsi prices period).length = prices.length ∧
    ∀ i, i < prices.length →
      ((calculate_simple_rsi prices period).getD i none = none ↔
        (i < period ∨ trailingLossMean prices period i = 0)) := by
  refine ⟨calculate_simple_rsi_length prices period hne, ?_⟩
  intro i hi
  rcases Nat.eq_zero_or_pos i with h0 | h1
  · subst h0
    have hlhs : (calculate_simple_rsi prices period).getD 0 none = none := by
      simp [calculate_simple_rsi]
    exact iff_of_true hlhs (Or.inl hp)
  · rw [calculate_simple_rsi_getD_succ prices period i h1 hi]
    by_cases hip : i < period
    · simp [hip]
    · simp only [if_neg hip, trailingLossMean, trailingLossSum]
      by_cases hz :
          (((lossList prices).drop (i - period)).take period).sum / (period : ℚ) = 0
      · simp [hz, hip]
      · simp [hz, hip]

/-- Claim C4, counterexample to the original statement: on the strictly
increasing 16-bar series `c4prices`, index 15 has 15 ≥ 14 trailing deltas
available, yet RSI is undefined there (the trailing window has zero losses),
refuting "undefined exactly when fewer than `period` trailing deltas are
available ... and defined otherwise". -/
theorem rsi_window_boundary_counterexample :
    c4prices.length = 16 ∧ ¬ (15 < 14) ∧
    (calculate_simple_rsi c4prices 14).getD 15 none = none := by
  refine ⟨rfl, by norm_num, ?_⟩
  norm_num [calculate_simple_rsi, windowMeans, gainList, lossList, diffs,
    c4prices, max_def,
    (show List.range 15 = [0, 1, 2, 3, 4, 5, 6, 7, 8, 9, 10, 11, 12, 13, 14]
      from rfl)]

/-- Claim C4, witness for `rsi_undefined_iff` at a concrete input. -/
theorem rsi_undefined_iff_witness :
    0 < 2 ∧ ([1, 2, 3] : List ℚ) ≠ [] ∧
    ((calculate_simple_rsi [1, 2, 3] 2).length = ([1, 2, 3] : List ℚ).length ∧
     ∀ i, i < ([1, 2, 3] : List ℚ).length →
       ((calculate_simple_rsi [1, 2, 3] 2).getD i none = none ↔
         (i < 2 ∨ trailingLossMean [1, 2, 3] 2 i = 0))) :=
  ⟨by norm_num, by simp, rsi_undefined_iff [1, 2, 3] 2 (by norm_num) (by simp)⟩

/-- Claim C3 (amended).  At every computable index (at least `period`
trailing deltas) where the mean of the trailing `period` losses is exactly
0, `calculate_simple_rsi` yields an UNDEFINED value (NaN), not the value
100: the source's guard `avg_losses[i] == 0` routes the zero-loss case to
`np.nan` together with the insufficient-history case, so division by zero is
avoided by emitting no value rather than the claimed 100.  (The exponential
variant `calculate_rsi` does yield 100 when cumulative losses are zero and
cumulative gains positive, but the trailing-window function the claim
describes does not.) -/
theorem rsi_zero_loss_undefined (prices : List ℚ) (period i : ℕ)
    (hp : 0 < period) (hpi : period ≤ i) (hi : i < prices.length)
    (hz : trailingLossMean prices period i = 0) :
    (calculate_simple_rsi prices period).getD i none = none := by
  have h1 : 1 ≤ i := le_trans hp hpi
  rw [calculate_simple_rsi_getD_succ prices period i h1 hi]
  rw [if_neg (by omega)]
  rw [if_pos (by simpa [trailingLossMean, trailingLossSum] using hz)]

/-- Claim C3, counterexample to the original statement: on the strictly
increasing series `c3prices`, index 14 is computable (14 trailing deltas)
and its trailing mean loss is 0, yet the RSI value is `none`, not the
defined value 100 the claim requires. -/
theorem rsi_zero_loss_counterexample :
    14 ≤ 14 ∧ c3prices.length = 15 ∧ trailingLossMean c3prices 14 14 = 0 ∧
    ¬ ((calculate_simple_rsi c3prices 14).getD 14 none = some 100) := by
  have hnone : (calculate_simple_rsi c3prices 14).getD 14 none = none := by
    norm_num [calculate_simple_rsi, windowMeans, gainList, lossList, diffs,
      c3prices, max_def,
      (show List.range 14 = [0, 1, 2, 3, 4, 5, 6, 7, 8, 9, 10, 11, 12, 13]
        from rfl)]
  refine ⟨le_refl 14, rfl, ?_, by simp only [hnone]; simp⟩
  norm_num [trailingLossMean, trailingLossSum, lossList, diffs, c3prices,
    max_def]

/-- Claim C3, witness for `rsi_zero_loss_undefined` at a concrete input. -/
theorem rsi_zero_loss_undefined_witness :
    0 < 14 ∧ 14 ≤ 14 ∧ 14 < c3prices.length ∧
    trailingLossMean c3prices 14 14 = 0 ∧
    (calculate_simple_rsi c3prices 14).getD 14 none = none := by
  have hz : trailingLossMean c3prices 14 14 = 0 := by
    norm_num [trailingLossMean, trailingLossSum, lossList, diffs, c3prices,
      max_def]
  exact ⟨by norm_num, le_refl 14, by simp [c3prices], hz,
    rsi_zero_loss_undefined c3prices 14 14 (by norm_num) (le_refl 14)
      (by simp [c3prices]) hz⟩

/-- Claim C7 (confirmed).  For a non-empty close series, the red-day run
list has the same length as the series, starts at 0, satisfies the
recurrence `run[i] = run[i-1] + 1` when `closes[i] < closes[i-1]` and
`run[i] = 0` otherwise (so a flat close resets the run), and is identically
0 on every non-decreasing series. -/
theorem red_run_spec (closes : List ℚ) (hne : closes ≠ []) :
    (identify_red_days closes).length = closes.length ∧
    (identify_red_days closes).getD 0 0 = 0 ∧
    (∀ i, i < closes.length → 1 ≤ i →
      (identify_red_days closes).getD i 0 =
        if closes.getD i 0 < closes.getD (i - 1) 0
        then (identify_red_days closes).getD (i - 1) 0 + 1 else 0) ∧
    (closes.Chain' (fun a b => a ≤ b) →
      ∀ i, i < closes.length → (identify_red_days closes).getD i 0 = 0) := by
  cases closes with
  | nil => exact absurd rfl hne
  | cons c rest =>
    have hrec : ∀ i, i < (c :: rest).length → 1 ≤ i →
        (identify_red_days (c :: rest)).getD i 0 =
          if (c :: rest).getD i 0 < (c :: rest).getD (i - 1) 0
          then (identify_red_days (c :: rest)).getD (i - 1) 0 + 1 else 0 := by
      intro i hi h1
      obtain ⟨j, rfl⟩ : ∃ j, i = j + 1 := ⟨i - 1, by omega⟩
      have hj : j < rest.length := by simpa using hi
      simp only [identify_red_days, List.getD_cons_succ, Nat.add_sub_cancel]
      rw [identifyRedAux_getD rest c 0 j hj]
    refine ⟨by simp [identify_red_days, identifyRedAux_length], rfl, hrec, ?_⟩
    intro hch i hi
    cases i with
    | zero => rfl
    | succ j =>
        have hj : j < rest.length := by simpa using hi
        have hj1 : j < (c :: rest).length - 1 := by simpa using hj
        have hle : (c :: rest).getD j 0 ≤ (c :: rest).getD (j + 1) 0 := by
          have h := List.chain'_iff_get.mp hch j hj1
          rw [List.getD_eq_getElem _ _ (by simp; omega),
            List.getD_eq_getElem _ _ (by simp; omega)]
          simpa using h
        rw [hrec (j + 1) hi (by omega), Nat.add_sub_cancel,
          if_neg (not_lt.mpr hle)]

/-- Claim C7, witness for `red_run_spec` on the non-decreasing series
`[1, 1, 2]` (note the flat step). -/
theorem red_run_spec_witness :
    ([1, 1, 2] : List ℚ) ≠ [] ∧
    ((identify_red_days [1, 1, 2]).length = ([1, 1, 2] : List ℚ).length ∧
     (identify_red_days [1, 1, 2]).getD 0 0 = 0 ∧
     (∀ i, i < ([1, 1, 2] : List ℚ).length → 1 ≤ i →
       (identify_red_days [1, 1, 2]).getD i 0 =
         if ([1, 1, 2] : List ℚ).getD i 0 < ([1, 1, 2] : List ℚ).getD (i - 1) 0
         then (identify_red_days [1, 1, 2]).getD (i - 1) 0 + 1 else 0) ∧
     (([1, 1, 2] : List ℚ).Chain' (fun a b => a ≤ b) →
       ∀ i, i < ([1, 1, 2] : List ℚ).length →
         (identify_red_days [1, 1, 2]).getD i 0 = 0)) :=
  ⟨by simp, red_run_spec [1, 1, 2] (by simp)⟩

/-- Claim C6 (confirmed).  For every index of the price series, the
`Buy_Signal` entry of `generate_signals` is true iff the RSI at that index
is defined, below the RSI threshold, and the red-day run is at least the
red-day threshold; an index with undefined RSI never signals, whatever its
run length. -/
theorem signal_iff (prices : List ℚ) (rsiThreshold : ℚ)
    (redDays rsiPeriod : ℕ) (i : ℕ) (hi : i < prices.length) :
    (generate_signals_buy prices rsiThreshold redDays rsiPeriod).getD i false
        = true ↔
      ∃ r, (calculate_rsi prices rsiPeriod).getD i none = some r ∧
        r < rsiThreshold ∧
        redDays ≤ (identify_red_days prices).getD i 0 := by
  simp only [generate_signals_buy]
  rw [getD_range_map _ false hi]
  cases hr : (calculate_rsi prices rsiPeriod).getD i none with
  | none => simp
  | some r =>
      simp only [Bool.and_eq_true, decide_eq_true_eq, Option.some.injEq]
      constructor
      · rintro ⟨hred, hthr⟩
        exact ⟨r, rfl, hthr, hred⟩
      · rintro ⟨r', hr', hthr, hred⟩
        cases hr'
        exact ⟨hred, hthr⟩

/-- Claim C6, witness for `signal_iff` at the final index of a three-bar
falling series, where the signal is true. -/
theorem signal_iff_witness :
    2 < ([100, 99, 98] : List ℚ).length ∧
    ((generate_signals_buy [100, 99, 98] 30 2 14).getD 2 false = true ↔
      ∃ r, (calculate_rsi [100, 99, 98] 14).getD 2 none = some r ∧
        r < 30 ∧ 2 ≤ (identify_red_days [100, 99, 98]).getD 2 0) :=
  ⟨by simp, signal_iff [100, 99, 98] 30 2 14 2 (by simp)⟩

/-- The winning-return count over mapped returns equals the winning-trade
count: `len([r for r in returns if r > 0])` with
`returns = [t['return_pct'] for t in trades]`. -/
lemma winning_length (trades : List Trade) :
    ((trades.map (fun t => t.returnPct)).filter (fun r => decide (0 < r))).length
      = (trades.filter (fun t => decide (0 < t.returnPct))).length := by
  rw [← List.countP_eq_length_filter, ← List.countP_eq_length_filter,
    List.countP_map]
  rfl

/-- Claim C8 (amended).  For a non-empty trade list both aggregators report
`win_rate` as the count of trades with positive `return_pct` divided by the
trade count, TIMES 100 (a percentage, not the bare ratio of the original
claim); for an empty trade list `calculate_performance_metrics` reports 0
while `calculate_trade_statistics` returns the empty dict (no `win_rate`
key at all), not the claimed 0. -/
theorem win_rate_spec (trades : List Trade) (hne : trades ≠ []) :
    (calculate_performance_metrics trades).win_rate =
      ((trades.filter (fun t => decide (0 < t.returnPct))).length : ℚ) /
        (trades.length : ℚ) * 100 ∧
    Option.map (fun st => st.win_rate) (calculate_trade_statistics trades) =
      some (((trades.filter (fun t => decide (0 < t.returnPct))).length : ℚ) /
        (trades.length : ℚ) * 100) ∧
    (calculate_performance_metrics []).win_rate = 0 ∧
    calculate_trade_statistics [] = none := by
  refine ⟨?_, ?_, by simp [calculate_performance_metrics],
    by simp [calculate_trade_statistics]⟩
  · simp only [calculate_performance_metrics, if_neg hne]
    rw [winning_length]
  · simp only [calculate_trade_statistics, if_neg hne, Option.map_some']
    rw [winning_length]

/-- Claim C8, counterexample to the original statement: on one winning and
one losing trade the reported `win_rate` is 50 (a percentage), not the
claimed ratio `count(return_pct > 0) / count(trades) = 1/2`. -/
theorem win_rate_counterexample :
    (calculate_performance_metrics [c8winTrade, c8loseTrade]).win_rate = 50 ∧
    ((([c8winTrade, c8loseTrade].filter
        (fun t => decide (0 < t.returnPct))).length : ℚ) /
      (([c8winTrade, c8loseTrade] : List Trade).length : ℚ) = 1 / 2) ∧
    ((50 : ℚ) ≠ 1 / 2) := by
  refine ⟨?_, ?_, by norm_num⟩
  · unfold calculate_performance_metrics
    rw [if_neg (by simp)]
    norm_num [c8winTrade, c8loseTrade, List.filter]
  · norm_num [c8winTrade, c8loseTrade, List.filter]

/-- Claim C8, witness for `win_rate_spec` at a concrete two-trade list. -/
theorem win_rate_spec_witness :
    ([c8winTrade, c8loseTrade] : List Trade) ≠ [] ∧
    ((calculate_performance_metrics [c8winTrade, c8loseTrade]).win_rate =
      (([c8winTrade, c8loseTrade].filter
          (fun t => decide (0 < t.returnPct))).length : ℚ) /
        (([c8winTrade, c8loseTrade] : List Trade).length : ℚ) * 100 ∧
     Option.map (fun st => st.win_rate)
        (calculate_trade_statistics [c8winTrade, c8loseTrade]) =
      some ((([c8winTrade, c8loseTrade].filter
          (fun t => decide (0 < t.returnPct))).length : ℚ) /
        (([c8winTrade, c8loseTrade] : List Trade).length : ℚ) * 100) ∧
     (calculate_performance_metrics []).win_rate = 0 ∧
     calculate_trade_statistics [] = none) :=
  ⟨by simp, win_rate_spec [c8winTrade, c8loseTrade] (by simp)⟩

/-- A member of `getLast?` is a member of the list. -/
lemma mem_of_mem_getLastOpt {α : Type} {l : List α} {x : α}
    (h : x ∈ l.getLast?) : x ∈ l := by
  obtain ⟨hne, rfl⟩ := List.mem_getLast?_eq_getLast h
  exact List.getLast_mem hne

/-- Strictly increasing timestamps, read through `getD`. -/
lemma datesMono_getD {dates : List ℤ} (hm : datesMono dates) {j k : ℕ}
    (hjk : j < k) (hk : k < dates.length) :
    dates.getD j 0 < dates.getD k 0 := by
  have hj : j < dates.length := lt_trans hjk hk
  rw [List.getD_eq_getElem _ _ hj, List.getD_eq_getElem _ _ hk]
  exact List.pairwise_iff_getElem.mp hm j k hj hk hjk

/-- The initial loop state satisfies the invariant. -/
lemma simInv_init (dates : List ℤ) : SimInv dates ⟨none, [], 0⟩ 0 := by
  refine ⟨by simp, by simp, by simp, ?_⟩
  intro p hp
  simp at hp

/-- A bar that changes nothing preserves the invariant. -/
lemma simInv_skip {dates : List ℤ} {s : SimState} {i : ℕ}
    (hInv : SimInv dates s i) : SimInv dates s (i + 1) := by
  obtain ⟨h1, h2, h3, h4⟩ := hInv
  refine ⟨h1, h2, ?_, ?_⟩
  · intro t ht
    obtain ⟨j, hj1, hj2, hj3⟩ := h3 t ht
    exact ⟨j, by omega, hj2, hj3⟩
  · intro p hp
    obtain ⟨⟨j, hj1, hj2, hj3⟩, hs⟩ := h4 p hp
    exact ⟨⟨j, by omega, hj2, hj3⟩, hs⟩

/-- Opening a position at bar `i` preserves the invariant: the new position
is dated at bar `i`, after every recorded exit. -/
lemma simInv_open (dates : List ℤ) (hm : datesMono dates) (i : ℕ)
    (hi : i < dates.length) (s : SimState) (hInv : SimInv dates s i)
    (c : ℚ) (k : ℕ) :
    SimInv dates ⟨some ⟨dates.getD i 0, c⟩, s.trades, k⟩ (i + 1) := by
  obtain ⟨h1, h2, h3, _⟩ := hInv
  refine ⟨h1, h2, ?_, ?_⟩
  · intro t ht
    obtain ⟨j, hj1, hj2, hj3⟩ := h3 t ht
    exact ⟨j, by omega, hj2, hj3⟩
  · intro p hp
    have hpp : (⟨dates.getD i 0, c⟩ : Position) = p := by simpa using hp
    subst hpp
    refine ⟨⟨i, by omega, hi, rfl⟩, ?_⟩
    intro t ht
    obtain ⟨j, hj1, hj2, hj3⟩ := h3 t ht
    rw [hj3]
    exact datesMono_getD hm hj1 hi

/-- Closing the open position at bar `i` preserves the invariant, for any
trade record whose entry date is the position's and whose exit date is bar
`i`'s. -/
lemma simInv_close (dates : List ℤ) (hm : datesMono dates) (i : ℕ)
    (hi : i < dates.length) (s : SimState) (pos : Position)
    (hInv : SimInv dates s i) (hp : s.position = some pos) (tr : Trade)
    (hbuy : tr.buyDate = pos.buyDate) (hsell : tr.sellDate = dates.getD i 0)
    (k : ℕ) :
    SimInv dates ⟨none, s.trades ++ [tr], k⟩ (i + 1) := by
  obtain ⟨h1, h2, h3, h4⟩ := hInv
  obtain ⟨⟨j, hji, hjn, hjb⟩, hsellall⟩ := h4 pos hp
  have hbs : tr.buyDate ≤ tr.sellDate := by
    rw [hbuy, hsell, hjb]
    exact le_of_lt (datesMono_getD hm hji hi)
  refine ⟨?_, ?_, ?_, ?_⟩
  · intro t ht
    rcases List.mem_append.mp ht with h | h
    · exact h1 t h
    · rw [List.mem_singleton.mp h]
      exact hbs
  · refine List.Chain'.append h2 (List.chain'_singleton tr) ?_
    intro x hx y hy
    have hyy : tr = y := by simpa using hy
    rw [← hyy, hbuy]
    exact hsellall x (mem_of_mem_getLastOpt hx)
  · intro t ht
    rcases List.mem_append.mp ht with h | h
    · obtain ⟨j', hj1, hj2, hj3⟩ := h3 t h
      exact ⟨j', by omega, hj2, hj3⟩
    · rw [List.mem_singleton.mp h]
      exact ⟨i, by omega, hi, hsell⟩
  · intro p hp'
    simp at hp'

/-- One `simple_backtest` loop iteration preserves the invariant. -/
lemma simpleStep_inv (dates : List ℤ) (closes : List ℚ)
    (rsiV : List (Option ℚ)) (red : List ℕ) (thr ex : ℚ) (rd : ℕ)
    (hm : datesMono dates) (s : SimState) (i : ℕ) (hi : i < dates.length)
    (hInv : SimInv dates s i) :
    SimInv dates (simpleStep dates closes rsiV red thr ex rd s i) (i + 1) := by
  unfold simpleStep
  split
  · exact simInv_skip hInv
  · split
    · split
      · exact simInv_open dates hm i hi s hInv (closes.getD i 0) (s.opens + 1)
      · exact simInv_skip hInv
    · next pos heq =>
        dsimp only
        split
        · exact simInv_close dates hm i hi s pos hInv heq _ rfl rfl s.opens
        · exact simInv_skip hInv

/-- One `MeanReversionStrategy.backtest` loop iteration preserves the
invariant. -/
lemma mrStep_inv (dates : List ℤ) (closes : List ℚ)
    (rsiV : List (Option ℚ)) (buy : List Bool) (ex : ℚ) (ticker : String)
    (hm : datesMono dates) (s : SimState) (i : ℕ) (hi : i < dates.length)
    (hInv : SimInv dates s i) :
    SimInv dates (mrStep dates closes rsiV buy ex ticker s i) (i + 1) := by
  unfold mrStep
  split
  · exact simInv_skip hInv
  · split
    · split
      · exact simInv_open dates hm i hi s hInv (closes.getD i 0) (s.opens + 1)
      · exact simInv_skip hInv
    · next pos heq =>
        dsimp only
        split
        · exact simInv_close dates hm i hi s pos hInv heq _ rfl rfl s.opens
        · exact simInv_skip hInv

/-- The invariant holds after any prefix of the index loop. -/
lemma foldl_range_inv (dates : List ℤ) (step : SimState → ℕ → SimState)
    (hstep : ∀ s i, i < dates.length → SimInv dates s i →
      SimInv dates (step s i) (i + 1)) :
    ∀ m, m ≤ dates.length →
      SimInv dates ((List.range m).foldl step ⟨none, [], 0⟩) m := by
  intro m
  induction m with
  | zero => intro _; exact simInv_init dates
  | succ k ih =>
      intro hk
      rw [List.range_succ, List.foldl_append, List.foldl_cons, List.foldl_nil]
      exact hstep _ k (by omega) (ih (by omega))

/-- The empty TradeSet is trivially ordered. -/
lemma tradesOrdered_nil : tradesOrdered [] :=
  ⟨by simp, List.chain'_nil⟩

/-- The final state of the `MeanReversionStrategy.backtest` loop, together
with the post-loop forced close, yields an ordered TradeSet. -/
lemma mr_final_ordered (dates : List ℤ) (closes : List ℚ) (ticker : String)
    (hm : datesMono dates) (F : SimState)
    (hfin : SimInv dates F dates.length) :
    tradesOrdered
      (match F.position with
       | none => F.trades
       | some pos =>
           F.trades ++
             [{ ticker := ticker,
                buyDate := pos.buyDate,
                buyPrice := pos.buyPrice,
                sellDate := dates.getD (dates.length - 1) 0,
                sellPrice := closes.getD (closes.length - 1) 0,
                returnPct := (closes.getD (closes.length - 1) 0 - pos.buyPrice)
                  / pos.buyPrice * 100,
                daysHeld := dates.getD (dates.length - 1) 0 - pos.buyDate,
                exitReason := ExitReason.end_of_data }]) := by
  cases hpos : F.position with
  | none => exact ⟨hfin.1, hfin.2.1⟩
  | some pos =>
      obtain ⟨h1, h2, h3, h4⟩ := hfin
      obtain ⟨⟨j, hji, hjn, hjb⟩, hsellall⟩ := h4 pos hpos
      have hble : pos.buyDate ≤ dates.getD (dates.length - 1) 0 := by
        rcases Nat.lt_or_ge j (dates.length - 1) with h | h
        · rw [hjb]
          exact le_of_lt (datesMono_getD hm h (by omega))
        · have hj : j = dates.length - 1 := by omega
          rw [hjb, hj]
      constructor
      · intro t ht
        rcases List.mem_append.mp ht with h | h
        · exact h1 t h
        · rw [List.mem_singleton.mp h]
          exact hble
      · refine List.Chain'.append h2 (List.chain'_singleton _) ?_
        intro x hx y hy
        simp only [List.head?_cons, Option.mem_def, Option.some.injEq] at hy
        subst hy
        exact hsellall x (mem_of_mem_getLastOpt hx)

/-- Claim C5 (amended).  For strictly increasing timestamps, every Trade in
the TradeSet returned by either simulator satisfies
`entry_timestamp ≤ exit_timestamp`, and consecutive trades satisfy
`previous exit < next entry`, so the set is chronologically ordered and
non-overlapping.  (The original claim's strict `entry < exit` fails:
`mr_same_bar_trade_counterexample` exhibits a position opened at the final
bar that `MeanReversionStrategy.backtest` force-closes at that same bar,
producing a trade with equal entry and exit timestamps.) -/
theorem trade_ordering (dates : List ℤ) (closes : List ℚ)
    (rsiThreshold exitPercentage : ℚ) (redDays rsiPeriod : ℕ)
    (ticker : String) (hm : datesMono dates) :
    tradesOrdered (MeanReversionStrategy_backtest dates closes rsiThreshold
      exitPercentage redDays rsiPeriod ticker) ∧
    tradesOrdered (simple_backtest dates closes rsiThreshold exitPercentage
      redDays) := by
  constructor
  · have hfin : SimInv dates
        ((List.range dates.length).foldl
          (mrStep dates closes (calculate_rsi closes rsiPeriod)
            (generate_signals_buy closes rsiThreshold redDays rsiPeriod)
            exitPercentage ticker) ⟨none, [], 0⟩) dates.length :=
      foldl_range_inv dates _
        (fun s i hi hInv => mrStep_inv _ _ _ _ _ _ hm s i hi hInv)
        dates.length (le_refl _)
    unfold MeanReversionStrategy_backtest
    dsimp only
    exact mr_final_ordered dates closes ticker hm _ hfin
  · unfold simple_backtest simple_backtest_run
    dsimp only
    split
    · exact tradesOrdered_nil
    · have hfin : SimInv dates
          ((List.range dates.length).foldl
            (simpleStep dates closes (calculate_simple_rsi closes 14)
              (identify_red_days closes) rsiThreshold exitPercentage redDays)
            ⟨none, [], 0⟩) dates.length :=
        foldl_range_inv dates _
          (fun s i hi hInv => simpleStep_inv _ _ _ _ _ _ _ hm s i hi hInv)
          dates.length (le_refl _)
      exact ⟨hfin.1, hfin.2.1⟩

set_option maxRecDepth 8000
set_option maxHeartbeats 1600000

/-- Claim C5, counterexample to the original statement: on the strictly
decreasing three-bar series the buy signal first fires at the final bar;
`MeanReversionStrategy.backtest` opens there and its post-loop handler
force-closes at the same bar, producing a trade with
`entry_timestamp = exit_timestamp` — refuting the claimed strict
`entry_timestamp < exit_timestamp`. -/
theorem mr_same_bar_trade_counterexample :
    MeanReversionStrategy_backtest [0, 1, 2] [100, 99, 98] 30 (1/20) 2 14 "T"
        =
      [{ ticker := "T", buyDate := 2, buyPrice := 98, sellDate := 2,
         sellPrice := 98, returnPct := 0, daysHeld := 0,
         exitReason := ExitReason.end_of_data }] ∧
    ¬ ((2 : ℤ) < 2) := by
  refine ⟨?_, by norm_num⟩
  norm_num [MeanReversionStrategy_backtest, mrStep, generate_signals_buy,
    calculate_rsi, ewm, ewmAux, gainSeries, lossSeries, diffs,
    identify_red_days, identifyRedAux, max_def,
    (show List.range 3 = [0, 1, 2] from rfl)]

/-- Claim C5, witness for `trade_ordering` at a concrete input. -/
theorem trade_ordering_witness :
    datesMono [0, 1, 2] ∧
    (tradesOrdered (MeanReversionStrategy_backtest [0, 1, 2] [100, 99, 98]
        30 (1/20) 2 14 "T") ∧
     tradesOrdered (simple_backtest [0, 1, 2] [100, 99, 98] 30 (1/20) 2)) :=
  ⟨by unfold datesMono; decide, trade_ordering [0, 1, 2] [100, 99, 98] 30
    (1/20) 2 14 "T" (by unfold datesMono; decide)⟩

/-- Claim C1 (code bug).  On `c1closes` the only entry signal of
`simple_backtest` fires at the final bar: the loop opens a position there
(`opens = 1`), but no exit branch can run after the entry and the function
has no post-loop forced close (unlike `MeanReversionStrategy.backtest`,
lines 151–169), so the returned TradeSet is empty — an opened position is
silently dropped, contradicting the claimed
`count(opens) = count(trades)` / forced `end_of_data` close. -/
theorem simple_backtest_drops_position :
    simple_backtest_opens c1dates c1closes 30 (1/20) 2 = 1 ∧
    simple_backtest c1dates c1closes 30 (1/20) 2 = [] := by
  norm_num [simple_backtest, simple_backtest_opens, simple_backtest_run,
    simpleStep, calculate_simple_rsi, windowMeans, gainList, lossList, diffs,
    identify_red_days, identifyRedAux, c1closes, c1dates, max_def,
    (show List.range 20 =
      [0, 1, 2, 3, 4, 5, 6, 7, 8, 9, 10, 11, 12, 13, 14, 15, 16, 17, 18, 19]
      from rfl),
    (show List.range 19 =
      [0, 1, 2, 3, 4, 5, 6, 7, 8, 9, 10, 11, 12, 13, 14, 15, 16, 17, 18]
      from rfl)]

/-- Claim C2 (code bug).  On `c2closes` the position entered at bar 14
(price 86) first crosses the 5% bracket at bar 28 (price 91,
|return| = 5/86 ≥ 1/20), but bar 28's trailing RSI window has zero losses,
so its RSI is NaN and `simple_backtest`'s `continue` skips the bar — exit
checks included.  The trade closes only at bar 29, not at the earliest
bar `j > i` at which the threshold held, contradicting the claim (and the
source's own comment that the NaN guard is only for bars that "don't have
RSI data yet"). -/
theorem simple_backtest_late_exit :
    simple_backtest c2dates c2closes 30 (1/20) 2 =
      [{ ticker := "STOCK", buyDate := 14, buyPrice := 86, sellDate := 29,
         sellPrice := 181/2, returnPct := 225/43, daysHeld := 15,
         exitReason := ExitReason.target_hit }] ∧
    (1/20 : ℚ) ≤
      |(c2closes.getD 28 0 - c2closes.getD 14 0) / c2closes.getD 14 0| ∧
    (calculate_simple_rsi c2closes 14).getD 28 none = none ∧
    (14 : ℕ) < 28 ∧ (28 : ℕ) < 29 := by
  refine ⟨?_, ?_, ?_, by norm_num, by norm_num⟩
  · norm_num [simple_backtest, simple_backtest_run, simpleStep,
      calculate_simple_rsi, windowMeans, gainList, lossList, diffs,
      identify_red_days, identifyRedAux, c2closes, c2dates, max_def,
      abs_eq_max_neg,
      (show List.range 30 =
        [0, 1, 2, 3, 4, 5, 6, 7, 8, 9, 10, 11, 12, 13, 14, 15, 16, 17, 18,
         19, 20, 21, 22, 23, 24, 25, 26, 27, 28, 29] from rfl),
      (show List.range 29 =
        [0, 1, 2, 3, 4, 5, 6, 7, 8, 9, 10, 11, 12, 13, 14, 15, 16, 17, 18,
         19, 20, 21, 22, 23, 24, 25, 26, 27, 28] from rfl)]
  · norm_num [c2closes, abs_eq_max_neg, max_def]
  · norm_num [calculate_simple_rsi, windowMeans, gainList, lossList, diffs,
      c2closes, max_def,
      (show List.range 29 =
        [0, 1, 2, 3, 4, 5, 6, 7, 8, 9, 10, 11, 12, 13, 14, 15, 16, 17, 18,
         19, 20, 21, 22, 23, 24, 25, 26, 27, 28] from rfl)]

/-- Claim C9 (code bug).  Neither backtest validates its input.  With the
invalid parameter `exit_percentage = -1` on a valid falling series,
`simple_backtest` silently produces three trades (every bar in a position
"exits" because `abs(return) >= -1` always holds); with non-positive prices
(`c9negCloses` crosses zero into negative values) and a valid
`exit_percentage` it likewise returns ordinary trades with negative entry
prices.  The core computes TradeSets instead of surfacing the structured
failure the claim requires. -/
theorem simple_backtest_no_validation :
    simple_backtest c9dates c9closes 30 (-1) 2 =
      [{ ticker := "STOCK", buyDate := 14, buyPrice := 86, sellDate := 15,
         sellPrice := 85, returnPct := -50/43, daysHeld := 1,
         exitReason := ExitReason.target_hit },
       { ticker := "STOCK", buyDate := 16, buyPrice := 84, sellDate := 17,
         sellPrice := 83, returnPct := -25/21, daysHeld := 1,
         exitReason := ExitReason.target_hit },
       { ticker := "STOCK", buyDate := 18, buyPrice := 82, sellDate := 19,
         sellPrice := 81, returnPct := -50/41, daysHeld := 1,
         exitReason := ExitReason.target_hit }] ∧
    simple_backtest c9dates c9negCloses 30 (1/20) 2 =
      [{ ticker := "STOCK", buyDate := 14, buyPrice := -9, sellDate := 15,
         sellPrice := -10, returnPct := 100/9, daysHeld := 1,
         exitReason := ExitReason.target_hit },
       { ticker := "STOCK", buyDate := 16, buyPrice := -11, sellDate := 17,
         sellPrice := -12, returnPct := 100/11, daysHeld := 1,
         exitReason := ExitReason.target_hit },
       { ticker := "STOCK", buyDate := 18, buyPrice := -13, sellDate := 19,
         sellPrice := -14, returnPct := 100/13, daysHeld := 1,
         exitReason := ExitReason.target_hit }] := by
  constructor <;>
  norm_num [simple_backtest, simple_backtest_run, simpleStep,
    calculate_simple_rsi, windowMeans, gainList, lossList, diffs,
    identify_red_days, identifyRedAux, c9closes, c9negCloses, c9dates,
    max_def, abs_eq_max_neg,
    (show List.range 20 =
      [0, 1, 2, 3, 4, 5, 6, 7, 8, 9, 10, 11, 12, 13, 14, 15, 16, 17, 18, 19]
      from rfl),
    (show List.range 19 =
      [0, 1, 2, 3, 4, 5, 6, 7, 8, 9, 10, 11, 12, 13, 14, 15, 16, 17, 18]
      from rfl)]

/-- Claim C10 (amended).  The except path of `SimpleStrategy.backtest`
returns the empty trade list with a bare copy of the input data (no RSI
column), while every success path attaches the RSI column to the returned
signals frame; the trade-list component of an internal failure is therefore
indistinguishable from a legitimately empty result, but the full return
value is not. -/
theorem wrapped_error_spec (msg : String) (dates : List ℤ) (closes : List ℚ)
    (rsiThreshold exitPercentage : ℚ) (redDays : ℕ) (ticker : String) :
    SimpleStrategy_backtest (Except.error msg) dates closes =
      ([], ⟨dates.zip closes, none⟩) ∧
    (SimpleStrategy_backtest
        (Except.ok (SimpleStrategy_backtest_try dates closes rsiThreshold
          exitPercentage redDays ticker)) dates closes).2.rsiColumn =
      some (calculate_simple_rsi closes 14) :=
  ⟨rfl, rfl⟩

/-- Claim C10, counterexample to the original statement: on a three-bar
input both the except path and the (legitimately empty, since the series is
shorter than 20 bars) success path return an empty trade list, yet the two
public return values differ — the success path's signals frame carries an
RSI column, the except path's does not — so an internal failure IS
distinguishable at the public interface. -/
theorem wrapped_error_counterexample :
    (SimpleStrategy_backtest (Except.error "boom") [0, 1, 2]
      [100, 99, 98]).1 = [] ∧
    (SimpleStrategy_backtest
      (Except.ok (SimpleStrategy_backtest_try [0, 1, 2] [100, 99, 98] 30
        (1/20) 2 "T")) [0, 1, 2] [100, 99, 98]).1 = [] ∧
    SimpleStrategy_backtest (Except.error "boom") [0, 1, 2] [100, 99, 98] ≠
      SimpleStrategy_backtest
        (Except.ok (SimpleStrategy_backtest_try [0, 1, 2] [100, 99, 98] 30
          (1/20) 2 "T")) [0, 1, 2] [100, 99, 98] := by
  refine ⟨rfl, rfl, ?_⟩
  intro h
  have hcol := congrArg (fun p => p.2.rsiColumn) h
  simp [SimpleStrategy_backtest, SimpleStrategy_backtest_try] at hcol
